import Mathlib

/-!
Shallow embedding of the `admin-cli` seeding pipeline (`src/geonames.rs` and
the `Seed` branch of `run` in `src/main.rs`), together with theorems settling
the claims about it.

Modelling conventions:
* Rust `f64` coordinate values are embedded as `Rat`: the pipeline never
  performs arithmetic on them, it only copies them into the output document,
  so any exact value type is a faithful carrier.
* `chrono::NaiveDate` is a year/month/day triple serialized as `yyyy-MM-dd`.
* `serde_json::Value` documents produced by `generate_elasticsearch_document`
  are embedded as association lists from field name to a flat JSON value
  (`JVal`); `Option` values serialize to `null` exactly as serde does.
* The Elasticsearch client is an oracle (`SeedConfig`): the run is a pure
  function from the oracle and the decoded row stream to the list of
  externally visible events (index creation, mapping application, bulk
  requests, diagnostic-file writes) and a final outcome (`Ok`, a propagated
  `?` error, or a panic).
-/

namespace AdminCli

/-- Embedding of `chrono::NaiveDate` (only construction and `yyyy-MM-dd`
display are used by the pipeline). -/
structure NaiveDate where
  year : Nat
  month : Nat
  day : Nat
deriving DecidableEq, Repr

def pad2 (n : Nat) : String :=
  if n < 10 then "0" ++ toString n else toString n

def pad4 (n : Nat) : String :=
  if n < 10 then "000" ++ toString n
  else if n < 100 then "00" ++ toString n
  else if n < 1000 then "0" ++ toString n
  else toString n

/-- `chrono::NaiveDate` serializes through serde as its ISO `yyyy-MM-dd`
display form. -/
def NaiveDate.toIso (d : NaiveDate) : String :=
  pad4 d.year ++ "-" ++ pad2 d.month ++ "-" ++ pad2 d.day

/-- Embedding of `geonames.rs::Location`: one decoded 19-column gazetteer row.
`f64` fields are carried as `Rat` (see the file header). -/
structure Location where
  id : Int
  name : String
  ascii_name : String
  alternate_names : String
  latitude : Rat
  longitude : Rat
  feature_class : Option Char
  feature_code : String
  country_code : String
  cc2 : String
  admin1_code : String
  admin2_code : String
  admin3_code : String
  admin4_code : Option String
  population : Option Int
  elevation : Option Int
  dem : Option Int
  timezone : String
  modification_date : NaiveDate
deriving DecidableEq, Repr

/-- Flat JSON value, rich enough for every field `generate_elasticsearch_document`
emits: `null`, strings, integers, and the two-element numeric coordinate
array. -/
inductive JVal where
  | null
  | str (s : String)
  | int (n : Int)
  | numArr (xs : List Rat)
deriving DecidableEq, Repr

/-- serde: `Option<i64>` serializes to the integer or to `null`. -/
def optIntVal : Option Int → JVal
  | some n => JVal.int n
  | none => JVal.null

/-- serde: `Option<String>` (and `Option<&String>` from `HashMap::get`)
serializes to the string or to `null`. -/
def optStrVal : Option String → JVal
  | some s => JVal.str s
  | none => JVal.null

/-- serde: `Option<char>` serializes to a one-character string or to `null`. -/
def optCharVal : Option Char → JVal
  | some c => JVal.str (String.singleton c)
  | none => JVal.null

/-- Embedding of `HashMap<String, String>` as it is used by the enricher:
a key/value list queried with `get`. -/
abbrev AdminMap : Type := List (String × String)

/-- `HashMap::get`: the value stored at `k`, if any. -/
def AdminMap.get (m : AdminMap) (k : String) : Option String :=
  List.lookup k m

/-- Rust `str::to_uppercase`, embedded as per-character uppercasing. (Rust
performs full Unicode uppercasing; `Char.toUpper` matches it on the ASCII
country codes this pipeline feeds it. `String.toUpper` itself is avoided only
because its `mapAux` recursion does not reduce in the kernel.) -/
def strUpper (s : String) : String :=
  String.mk (s.data.map Char.toUpper)

/-- A JSON object produced by the pipeline: field name to value, in emission
order. -/
abbrev JObj : Type := List (String × JVal)

/-- Field access on an emitted object: the value stored under key `k`. -/
def JObj.field (o : JObj) (k : String) : Option JVal :=
  List.lookup k o

/-- The list of field names an object carries. -/
def JObj.keys (o : JObj) : List String :=
  o.map Prod.fst

/-- Embedding of `Location::generate_elasticsearch_document`
(`src/geonames.rs` lines 101-130): population sanitization, admin key
construction and lookup, and the emitted field list, in source order. -/
def Location.generate_elasticsearch_document (l : Location)
    (admin1 : AdminMap) (admin2 : AdminMap) : JObj :=
  let pop := l.population.filter (fun population => decide (population ≥ 0))
  let admin_1_key := strUpper l.country_code ++ "." ++ l.admin1_code
  let admin_2_key :=
    strUpper l.country_code ++ "." ++ l.admin1_code ++ "." ++ l.admin2_code
  [("name", JVal.str l.name),
   ("ascii_name", JVal.str l.ascii_name),
   ("location", JVal.numArr [l.longitude, l.latitude]),
   ("elevation", optIntVal l.elevation),
   ("country_code", JVal.str l.country_code),
   ("feature_code", JVal.str l.feature_code),
   ("feature_class", optCharVal l.feature_class),
   ("admin1", optStrVal (admin1.get admin_1_key)),
   ("admin2", optStrVal (admin2.get admin_2_key)),
   ("population", optIntVal pop),
   ("timezone", JVal.str l.timezone),
   ("modification_date", JVal.str l.modification_date.toIso)]

/-- Embedding of `Location::generate_mapping` (`src/geonames.rs` lines
132-148): the fixed index field mapping, each entry standing for
`field: {"type": t}` inside the `properties` object. -/
def Location.generate_mapping : List (String × String) :=
  [("name", "text"),
   ("ascii_name", "text"),
   ("alternate_names", "text"),
   ("location", "geo_point"),
   ("country_code", "keyword"),
   ("feature_code", "keyword"),
   ("admin1", "text"),
   ("admin2", "text"),
   ("feature_class", "keyword"),
   ("population", "unsigned_long"),
   ("elevation", "integer"),
   ("timezone", "keyword"),
   ("modification_date", "date")]

/-- A bulk "index" (upsert) operation: the stringified numeric record id and
the document body (`BulkOperation::index(doc).id(record.id.to_string())`). -/
structure PendingOp where
  id : String
  doc : JObj
deriving DecidableEq, Repr

/-- The document/id pair enqueued for `record` (`src/main.rs` lines 135-139). -/
def opOf (admin1 : AdminMap) (admin2 : AdminMap) (l : Location) : PendingOp :=
  ⟨toString l.id, l.generate_elasticsearch_document admin1 admin2⟩

/-- Externally visible events of a seed run, in order: index creation, mapping
application, a bulk request carrying its operations, a diagnostic-file write
carrying the raw response body, and a marker recording the batch-buffer length
right after one record's loop iteration completes. -/
inductive Event where
  | createIndex
  | putMapping
  | bulk (ops : List PendingOp)
  | writeDiag (body : String)
  | afterRecord (buf : Nat)
deriving DecidableEq, Repr

/-- Final outcome of a run: clean success, an error propagated by `?`
(carrying its message), or a panic (carrying its message). -/
inductive Outcome where
  | ok
  | err (msg : String)
  | panic (msg : String)
deriving DecidableEq, Repr

/-- The message of the Rust runtime panic raised by `records % buffer` when
`buffer == 0` (`src/main.rs` line 142). -/
def remainderPanicMsg : String :=
  "attempt to calculate the remainder with a divisor of zero"

/-- The message of the `panic!` on a failed bulk response (`src/main.rs`
lines 160 and 176; the typo is the source's). -/
def bulkPanicMsg : String :=
  "Error inserting records into elaticsearch"

/-- Oracle for the run's environment: the configured batch capacity and the
responses the Elasticsearch endpoint returns. `indexExists` is false exactly
when the exists check returns 404 NOT_FOUND; `bulkResp i` is the `"errors"`
flag and the raw body of the response to the i-th bulk request (0-based). -/
structure SeedConfig where
  buffer : Nat
  indexExists : Bool
  createSucceeds : Bool
  mappingOk : Bool
  bulkResp : Nat → Bool × String

/-- Embedding of the ingestion loop of `run` (`src/main.rs` lines 129-178):
state is the remaining row stream, the `records` counter, the pending
`commands` buffer, and the index of the next bulk request. A row is an
`Except`: `error` is a row the csv decoder rejects, which `?` propagates.
The `buffer = 0` guard models the Rust remainder-by-zero panic that
`records % buffer` raises; Lean's `% 0` is total, so the branch is explicit. -/
def seedLoop (cfg : SeedConfig) (admin1 : AdminMap) (admin2 : AdminMap) :
    List (Except String Location) → Nat → List PendingOp → Nat →
    List Event × Outcome
  | [], _records, commands, reqIdx =>
      if commands.isEmpty then ([], Outcome.ok)
      else if (cfg.bulkResp reqIdx).1 then
        ([Event.bulk commands], Outcome.panic bulkPanicMsg)
      else
        ([Event.bulk commands], Outcome.ok)
  | Except.error e :: _rest, _records, _commands, _reqIdx =>
      ([], Outcome.err e)
  | Except.ok record :: rest, records, commands, reqIdx =>
      let commands := commands ++ [opOf admin1 admin2 record]
      let records := records + 1
      if cfg.buffer = 0 then
        ([], Outcome.panic remainderPanicMsg)
      else if records % cfg.buffer = 0 then
        if (cfg.bulkResp reqIdx).1 then
          ([Event.bulk commands, Event.writeDiag (cfg.bulkResp reqIdx).2],
           Outcome.panic bulkPanicMsg)
        else
          let next := seedLoop cfg admin1 admin2 rest records [] (reqIdx + 1)
          (Event.bulk commands :: Event.afterRecord 0 :: next.1, next.2)
      else
        let next := seedLoop cfg admin1 admin2 rest records commands reqIdx
        (Event.afterRecord commands.length :: next.1, next.2)

/-- Embedding of the index bootstrap (`src/main.rs` lines 82-116): on 404 the
index is created and, if creation succeeded, the mapping is applied; a failed
create or mapping-apply panics. Returns the events and `some` outcome when the
run aborts during bootstrap. -/
def seedBootstrap (cfg : SeedConfig) : List Event × Option Outcome :=
  if cfg.indexExists = false then
    if cfg.createSucceeds then
      if cfg.mappingOk then
        ([Event.createIndex, Event.putMapping], none)
      else
        ([Event.createIndex, Event.putMapping],
         some (Outcome.panic "Could not update mapping for index"))
    else
      ([Event.createIndex], some (Outcome.panic "Could not create index"))
  else
    ([], none)

/-- True exactly when the bootstrap falls through to ingestion instead of
panicking. -/
def bootstrapProceeds (cfg : SeedConfig) : Bool :=
  cfg.indexExists || (cfg.createSucceeds && cfg.mappingOk)

/-- Embedding of the `Seed` branch of `run` (`src/main.rs` lines 68-182)
after the admin lookups are loaded and the archive is opened: bootstrap, then
the ingestion loop over the decoded row stream. -/
def seedRun (cfg : SeedConfig) (rows : List (Except String Location))
    (admin1 : AdminMap) (admin2 : AdminMap) : List Event × Outcome :=
  match seedBootstrap cfg with
  | (evs, some out) => (evs, out)
  | (evs, none) =>
      let res := seedLoop cfg admin1 admin2 rows 0 [] 0
      (evs ++ res.1, res.2)

/-- The operation lists of the bulk requests in a trace, in order. -/
def bulkEvents (evs : List Event) : List (List PendingOp) :=
  evs.filterMap fun e =>
    match e with
    | Event.bulk ops => some ops
    | _ => none

/-- The sizes of the bulk requests in a trace, in order. -/
def bulkSizes (evs : List Event) : List Nat :=
  (bulkEvents evs).map List.length

/-- Whether a trace contains a diagnostic-file write. -/
def hasDiag (evs : List Event) : Bool :=
  evs.any fun e =>
    match e with
    | Event.writeDiag _ => true
    | _ => false

/-- The sequence of batch sizes produced by filling a capacity-`N` buffer that
currently holds `c` items with `m` more items, flushing each time it reaches
`N` and flushing any non-empty remainder at the end. -/
def chunkSizes (N : Nat) : Nat → Nat → List Nat
  | 0, c => if c = 0 then [] else [c]
  | m + 1, c =>
      if c + 1 = N then N :: chunkSizes N m 0 else chunkSizes N m (c + 1)

/-- Sample record used by concrete witnesses; built from an id, a
population, an admin1 lookup code and coordinates. -/
def sampleLoc (n : Int) (pop : Option Int) (a1code : String)
    (lat lon : Rat) : Location :=
  { id := n, name := "Sample", ascii_name := "Sample",
    alternate_names := "Foo,Bar", latitude := lat, longitude := lon,
    feature_class := some 'P', feature_code := "PPL", country_code := "US",
    cc2 := "", admin1_code := a1code, admin2_code := "075",
    admin3_code := "", admin4_code := none, population := pop,
    elevation := none, dem := none, timezone := "America/Los_Angeles",
    modification_date := ⟨2020, 1, 2⟩ }

/-- Five concrete records, for witnesses mirroring the spec's
capacity-2/5-records scenarios. -/
def goodsW : List Location :=
  [sampleLoc 1 (some 100) "CA" 1 2, sampleLoc 2 (some 100) "CA" 1 2,
   sampleLoc 3 (some 100) "CA" 1 2, sampleLoc 4 (some 100) "CA" 1 2,
   sampleLoc 5 (some 100) "CA" 1 2]

/-- The five records as an error-free decoded row stream. -/
def rowsW : List (Except String Location) :=
  goodsW.map Except.ok

/-- Oracle: index already exists, capacity 2, every bulk response clean. -/
def cfgAllOkW : SeedConfig :=
  ⟨2, true, true, true, fun _ => (false, "")⟩

/-- Oracle: index absent, creation and mapping succeed, capacity 2, every
bulk response clean. -/
def cfgAbsentW : SeedConfig :=
  ⟨2, false, true, true, fun _ => (false, "")⟩

/-- Oracle: capacity 2; the second bulk response (index 1, a full mid-stream
batch for the five-record stream) reports errors with raw body "RAWBODY". -/
def cfgMidErrW : SeedConfig :=
  ⟨2, true, true, true, fun i => (decide (i = 1), "RAWBODY")⟩

/-- Oracle: capacity 2; the third bulk response (index 2, the partial
end-of-stream batch for the five-record stream) reports errors. -/
def cfgTailErrW : SeedConfig :=
  ⟨2, true, true, true, fun i => (decide (i = 2), "RAWBODY")⟩

/-- Oracle: capacity 0 (the operator-configurable `--buffer 0`). -/
def cfgZeroW : SeedConfig :=
  ⟨0, true, true, true, fun _ => (false, "")⟩

/-! Field-projection lemmas for the emitted document: each one evaluates the
association-list lookup over the fixed field skeleton. -/

theorem field_location (l : Location) (admin1 admin2 : AdminMap) :
    (l.generate_elasticsearch_document admin1 admin2).field "location" =
      some (JVal.numArr [l.longitude, l.latitude]) := rfl

theorem field_admin1 (l : Location) (admin1 admin2 : AdminMap) :
    (l.generate_elasticsearch_document admin1 admin2).field "admin1" =
      some (optStrVal
        (admin1.get (strUpper l.country_code ++ "." ++ l.admin1_code))) := rfl

theorem field_admin2 (l : Location) (admin1 admin2 : AdminMap) :
    (l.generate_elasticsearch_document admin1 admin2).field "admin2" =
      some (optStrVal
        (admin2.get (strUpper l.country_code ++ "." ++ l.admin1_code ++ "." ++
          l.admin2_code))) := rfl

theorem field_population (l : Location) (admin1 admin2 : AdminMap) :
    (l.generate_elasticsearch_document admin1 admin2).field "population" =
      some (optIntVal
        (l.population.filter (fun population => decide (population ≥ 0)))) :=
  rfl

theorem field_alternate_names (l : Location) (admin1 admin2 : AdminMap) :
    (l.generate_elasticsearch_document admin1 admin2).field "alternate_names" =
      none := rfl

/-- C1: the claim says every enriched document carries an `alternate_names`
field holding the record's comma-joined alternate names, matching the index
mapping which declares `alternate_names` as a text field. The code violates
this: `generate_elasticsearch_document` emits no `alternate_names` key at all,
even though `generate_mapping` does declare `alternate_names: text` and the
record carries the names. Evaluated here at a concrete record whose
`alternate_names` is `"Foo,Bar"`: the document has no such field while the
mapping declares it. -/
theorem c1_alternate_names_dropped :
    ((sampleLoc 7 (some 100) "CA" 1 2).generate_elasticsearch_document []
        []).field "alternate_names" = none ∧
    "alternate_names" ∉
      JObj.keys
        ((sampleLoc 7 (some 100) "CA" 1 2).generate_elasticsearch_document []
          []) ∧
    ("alternate_names", "text") ∈ Location.generate_mapping := by
  refine ⟨rfl, ?_, ?_⟩ <;> decide

/-- C4: population sanitization — an absent population stays null, a present
negative population is replaced by null, and a present non-negative population
passes through unchanged. -/
theorem c4_population_sanitization (l : Location) (admin1 admin2 : AdminMap) :
    (l.population = none →
      (l.generate_elasticsearch_document admin1 admin2).field "population" =
        some JVal.null) ∧
    (∀ p : Int, l.population = some p → p < 0 →
      (l.generate_elasticsearch_document admin1 admin2).field "population" =
        some JVal.null) ∧
    (∀ p : Int, l.population = some p → 0 ≤ p →
      (l.generate_elasticsearch_document admin1 admin2).field "population" =
        some (JVal.int p)) := by
  refine ⟨fun h => ?_, fun p hp hneg => ?_, fun p hp hpos => ?_⟩
  · rw [field_population, h]
    simp [Option.filter, optIntVal]
  · rw [field_population, hp]
    have hd : decide (p ≥ (0 : Int)) = false := by
      simp only [ge_iff_le, decide_eq_false_iff_not, not_le]
      omega
    simp [Option.filter, hd, optIntVal]
  · rw [field_population, hp]
    have hd : decide (p ≥ (0 : Int)) = true := by
      simpa using hpos
    simp [Option.filter, hd, optIntVal]

/-- Witness for C4 at concrete inputs: population `-5` becomes null and
population `100` passes through. -/
theorem c4_population_sanitization_witness :
    ((sampleLoc 1 (some (-5)) "CA" 1 2).generate_elasticsearch_document []
        []).field "population" = some JVal.null ∧
    ((sampleLoc 2 (some 100) "CA" 1 2).generate_elasticsearch_document []
        []).field "population" = some (JVal.int 100) :=
  ⟨(c4_population_sanitization (sampleLoc 1 (some (-5)) "CA" 1 2) []
      []).2.1 (-5) rfl (by decide),
   (c4_population_sanitization (sampleLoc 2 (some 100) "CA" 1 2) []
      []).2.2 100 rfl (by decide)⟩

/-- C5: the admin1 field is the admin1 lookup's value at key
`uppercase(country_code) ++ "." ++ admin1_code`, and admin2 the admin2
lookup's value at `uppercase(country_code) ++ "." ++ admin1_code ++ "." ++
admin2_code`; a lookup miss yields a null field, never an empty string. -/
theorem c5_admin_lookup (l : Location) (admin1 admin2 : AdminMap) :
    ((l.generate_elasticsearch_document admin1 admin2).field "admin1" =
      some (optStrVal
        (admin1.get (strUpper l.country_code ++ "." ++ l.admin1_code)))) ∧
    ((l.generate_elasticsearch_document admin1 admin2).field "admin2" =
      some (optStrVal
        (admin2.get (strUpper l.country_code ++ "." ++ l.admin1_code ++ "." ++
          l.admin2_code)))) ∧
    (admin1.get (strUpper l.country_code ++ "." ++ l.admin1_code) = none →
      (l.generate_elasticsearch_document admin1 admin2).field "admin1" =
          some JVal.null ∧
        (l.generate_elasticsearch_document admin1 admin2).field "admin1" ≠
          some (JVal.str "")) ∧
    (admin2.get (strUpper l.country_code ++ "." ++ l.admin1_code ++ "." ++
        l.admin2_code) = none →
      (l.generate_elasticsearch_document admin1 admin2).field "admin2" =
          some JVal.null ∧
        (l.generate_elasticsearch_document admin1 admin2).field "admin2" ≠
          some (JVal.str "")) := by
  refine ⟨field_admin1 l admin1 admin2, field_admin2 l admin1 admin2,
    fun h => ?_, fun h => ?_⟩
  · rw [field_admin1, h]
    exact ⟨rfl, by simp [optStrVal]⟩
  · rw [field_admin2, h]
    exact ⟨rfl, by simp [optStrVal]⟩

/-- Witness for C5: with lookup `{"US.CA": "California"}` the admin1 field is
`"California"`; with an empty lookup it is null and not the empty string. -/
theorem c5_admin_lookup_witness :
    ((sampleLoc 7 (some 100) "CA" 1 2).generate_elasticsearch_document
        [("US.CA", "California")] []).field "admin1" =
      some (JVal.str "California") ∧
    ((sampleLoc 7 (some 100) "CA" 1 2).generate_elasticsearch_document []
        []).field "admin1" = some JVal.null ∧
    ((sampleLoc 7 (some 100) "CA" 1 2).generate_elasticsearch_document []
        []).field "admin1" ≠ some (JVal.str "") := by
  have hit := (c5_admin_lookup (sampleLoc 7 (some 100) "CA" 1 2)
    [("US.CA", "California")] []).1
  have miss := (c5_admin_lookup (sampleLoc 7 (some 100) "CA" 1 2) [] []).2.2.1
    (by decide)
  exact ⟨by rw [hit]; decide, miss.1, miss.2⟩

/-- C6: the location field is exactly the two-element array
`[longitude, latitude]`, and (whenever the two coordinates differ) it is not
the swapped array `[latitude, longitude]`. -/
theorem c6_location_order (l : Location) (admin1 admin2 : AdminMap) :
    ((l.generate_elasticsearch_document admin1 admin2).field "location" =
      some (JVal.numArr [l.longitude, l.latitude])) ∧
    (l.latitude ≠ l.longitude →
      (l.generate_elasticsearch_document admin1 admin2).field "location" ≠
        some (JVal.numArr [l.latitude, l.longitude])) := by
  refine ⟨field_location l admin1 admin2, fun hne heq => ?_⟩
  rw [field_location] at heq
  simp only [Option.some_inj, JVal.numArr.injEq, List.cons.injEq,
    and_true] at heq
  exact hne heq.2

/-- Witness for C6 at latitude 1, longitude 2: the field is `[2, 1]` and not
`[1, 2]`. -/
theorem c6_location_order_witness :
    ((sampleLoc 7 (some 100) "CA" 1 2).generate_elasticsearch_document []
        []).field "location" = some (JVal.numArr [2, 1]) ∧
    ((sampleLoc 7 (some 100) "CA" 1 2).generate_elasticsearch_document []
        []).field "location" ≠ some (JVal.numArr [1, 2]) :=
  ⟨(c6_location_order (sampleLoc 7 (some 100) "CA" 1 2) [] []).1,
   (c6_location_order (sampleLoc 7 (some 100) "CA" 1 2) [] []).2 (by decide)⟩

/-! Small rewriting lemmas for traces. -/

@[simp] theorem bulkEvents_nil : bulkEvents [] = [] := rfl

@[simp] theorem bulkEvents_cons_createIndex (evs : List Event) :
    bulkEvents (Event.createIndex :: evs) = bulkEvents evs := rfl

@[simp] theorem bulkEvents_cons_putMapping (evs : List Event) :
    bulkEvents (Event.putMapping :: evs) = bulkEvents evs := rfl

@[simp] theorem bulkEvents_cons_bulk (ops : List PendingOp)
    (evs : List Event) :
    bulkEvents (Event.bulk ops :: evs) = ops :: bulkEvents evs := rfl

@[simp] theorem bulkEvents_cons_writeDiag (body : String) (evs : List Event) :
    bulkEvents (Event.writeDiag body :: evs) = bulkEvents evs := rfl

@[simp] theorem bulkEvents_cons_afterRecord (b : Nat) (evs : List Event) :
    bulkEvents (Event.afterRecord b :: evs) = bulkEvents evs := rfl

@[simp] theorem bulkEvents_append (a b : List Event) :
    bulkEvents (a ++ b) = bulkEvents a ++ bulkEvents b :=
  List.filterMap_append a b _

@[simp] theorem hasDiag_nil : hasDiag [] = false := rfl

@[simp] theorem hasDiag_cons_createIndex (evs : List Event) :
    hasDiag (Event.createIndex :: evs) = hasDiag evs := rfl

@[simp] theorem hasDiag_cons_putMapping (evs : List Event) :
    hasDiag (Event.putMapping :: evs) = hasDiag evs := rfl

@[simp] theorem hasDiag_cons_bulk (ops : List PendingOp) (evs : List Event) :
    hasDiag (Event.bulk ops :: evs) = hasDiag evs := rfl

@[simp] theorem hasDiag_cons_writeDiag (body : String) (evs : List Event) :
    hasDiag (Event.writeDiag body :: evs) = true := rfl

@[simp] theorem hasDiag_cons_afterRecord (b : Nat) (evs : List Event) :
    hasDiag (Event.afterRecord b :: evs) = hasDiag evs := rfl

@[simp] theorem hasDiag_append (a b : List Event) :
    hasDiag (a ++ b) = (hasDiag a || hasDiag b) :=
  List.any_append

/-- Stepping the `records` counter through `% buffer`: the flush condition
`(r + 1) % N = 0` fires exactly when the residue has climbed to `N`. -/
theorem succ_mod_eq (N r : Nat) (hN : 1 ≤ N) :
    (r + 1) % N = if r % N + 1 = N then 0 else r % N + 1 := by
  have hlt : r % N < N := Nat.mod_lt _ hN
  rw [Nat.add_mod]
  rcases Nat.eq_or_lt_of_le hN with h1 | h2
  · subst h1
    simp [Nat.mod_one]
  · rw [Nat.mod_eq_of_lt h2]
    by_cases hc : r % N + 1 = N
    · simp [hc, Nat.mod_self]
    · rw [if_neg hc, Nat.mod_eq_of_lt (by omega)]

/-- Closed form of `chunkSizes`: `(c+m)/N` full batches followed by the
non-zero remainder, if any. -/
theorem chunkSizes_eq (N : Nat) (hN : 1 ≤ N) :
    ∀ m c, c < N →
      chunkSizes N m c =
        List.replicate ((c + m) / N) N ++
          (if (c + m) % N = 0 then [] else [(c + m) % N]) := by
  intro m
  induction m with
  | zero =>
      intro c hc
      rw [chunkSizes, Nat.add_zero, Nat.div_eq_of_lt hc, Nat.mod_eq_of_lt hc]
      by_cases h : c = 0 <;> simp [h]
  | succ m ih =>
      intro c hc
      rw [chunkSizes]
      by_cases h : c + 1 = N
      · rw [if_pos h, ih 0 hN]
        have hsum : c + (m + 1) = m + N := by omega
        rw [hsum, Nat.add_div_right m hN, Nat.add_mod_right m N]
        simp [List.replicate_succ]
      · rw [if_neg h, ih (c + 1) (by omega)]
        have hsum : c + 1 + m = c + (m + 1) := by omega
        rw [hsum]

/-- The bootstrap emits no bulk request, no diagnostic write and no
record marker, whatever the oracle answers. -/
theorem seedBootstrap_events (cfg : SeedConfig) :
    bulkEvents (seedBootstrap cfg).1 = [] ∧
      hasDiag (seedBootstrap cfg).1 = false ∧
      (∀ b, Event.afterRecord b ∉ (seedBootstrap cfg).1) := by
  rcases cfg with ⟨buf, ie, cs, mo, br⟩
  cases ie <;> cases cs <;> cases mo <;>
    simp [seedBootstrap, bulkEvents, hasDiag]

/-- When the bootstrap proceeds it hands control to the loop: its outcome
slot is `none`. -/
theorem seedBootstrap_proceeds (cfg : SeedConfig)
    (h : bootstrapProceeds cfg = true) :
    (seedBootstrap cfg).2 = none := by
  rcases cfg with ⟨buf, ie, cs, mo, br⟩
  cases ie <;> cases cs <;> cases mo <;>
    simp_all [seedBootstrap, bootstrapProceeds]

/-- When the bootstrap proceeds, the whole run is the bootstrap trace
followed by the loop's trace and outcome. -/
theorem seedRun_eq_of_proceeds (cfg : SeedConfig)
    (rows : List (Except String Location)) (admin1 admin2 : AdminMap)
    (h : bootstrapProceeds cfg = true) :
    seedRun cfg rows admin1 admin2 =
      ((seedBootstrap cfg).1 ++
        (seedLoop cfg admin1 admin2 rows 0 [] 0).1,
       (seedLoop cfg admin1 admin2 rows 0 [] 0).2) := by
  have h2 := seedBootstrap_proceeds cfg h
  rw [seedRun]
  rcases hsb : seedBootstrap cfg with ⟨evs, o⟩
  rw [hsb] at h2
  simp at h2
  subst h2
  simp

/-- The ingestion loop never creates an index or applies a mapping. -/
theorem seedLoop_no_bootstrap_events (cfg : SeedConfig)
    (admin1 admin2 : AdminMap) :
    ∀ (rows : List (Except String Location)) (r : Nat)
      (cs : List PendingOp) (q : Nat),
      Event.createIndex ∉ (seedLoop cfg admin1 admin2 rows r cs q).1 ∧
        Event.putMapping ∉ (seedLoop cfg admin1 admin2 rows r cs q).1 := by
  intro rows
  induction rows with
  | nil =>
      intro r cs q
      rw [seedLoop]
      by_cases hcs : cs.isEmpty <;>
        by_cases hb : (cfg.bulkResp q).1 <;> simp [hcs, hb]
  | cons row rest ih =>
      intro r cs q
      cases row with
      | error e => simp [seedLoop]
      | ok record =>
          rw [seedLoop]
          by_cases h0 : cfg.buffer = 0
          · simp [h0]
          · rw [if_neg h0]
            by_cases hflush : (r + 1) % cfg.buffer = 0
            · rw [if_pos hflush]
              by_cases hb : (cfg.bulkResp q).1
              · simp [hb]
              · simp only [hb, Bool.false_eq_true, if_false, List.mem_cons]
                have := ih (r + 1) [] (q + 1)
                simp only [List.mem_cons] at this ⊢
                refine ⟨?_, ?_⟩ <;> rintro (h | h | h) <;>
                  first
                    | exact Event.noConfusion h
                    | exact (this.1 h).elim
                    | exact (this.2 h).elim
            · rw [if_neg hflush]
              have := ih (r + 1) (cs ++ [opOf admin1 admin2 record]) q
              simp only [List.mem_cons] at this ⊢
              refine ⟨?_, ?_⟩ <;> rintro (h | h) <;>
                first
                  | exact Event.noConfusion h
                  | exact (this.1 h).elim
                  | exact (this.2 h).elim

theorem chunkSizes_zero (N c : Nat) :
    chunkSizes N 0 c = if c = 0 then [] else [c] := rfl

theorem chunkSizes_succ (N m c : Nat) :
    chunkSizes N (m + 1) c =
      if c + 1 = N then N :: chunkSizes N m 0 else chunkSizes N m (c + 1) :=
  rfl

/-- Error-free runs of the loop: starting from a buffer whose fill level is
the `records` counter's residue, the bulk requests have exactly the
`chunkSizes` sizes, their operations concatenate to the pending buffer
followed by the enqueued documents in file order, and the loop ends `ok`. -/
theorem seedLoop_noerr (cfg : SeedConfig) (admin1 admin2 : AdminMap)
    (hN : 1 ≤ cfg.buffer) (hresp : ∀ i, (cfg.bulkResp i).1 = false) :
    ∀ (goods : List Location) (r : Nat) (cs : List PendingOp) (q : Nat),
      cs.length = r % cfg.buffer →
      bulkSizes (seedLoop cfg admin1 admin2 (goods.map Except.ok) r cs q).1 =
          chunkSizes cfg.buffer goods.length cs.length ∧
        (bulkEvents
            (seedLoop cfg admin1 admin2
              (goods.map Except.ok) r cs q).1).flatten =
          cs ++ goods.map (opOf admin1 admin2) ∧
        (seedLoop cfg admin1 admin2 (goods.map Except.ok) r cs q).2 =
          Outcome.ok := by
  intro goods
  induction goods with
  | nil =>
      intro r cs q _hinv
      cases cs with
      | nil => simp [seedLoop, bulkSizes, chunkSizes_zero]
      | cons c cs' => simp [seedLoop, hresp q, bulkSizes, chunkSizes_zero]
  | cons g gs ih =>
      intro r cs q hinv
      rw [List.map_cons, seedLoop]
      rw [if_neg (by omega : ¬cfg.buffer = 0)]
      have hmod := succ_mod_eq cfg.buffer r hN
      rw [← hinv] at hmod
      by_cases hfull : cs.length + 1 = cfg.buffer
      · have hflush : (r + 1) % cfg.buffer = 0 := by
          rw [hmod, if_pos hfull]
        rw [if_pos hflush, if_neg (by simp [hresp q])]
        obtain ⟨ihsz, ihjoin, ihout⟩ := ih (r + 1) [] (q + 1) (by simp [hflush])
        have hcmds : (cs ++ [opOf admin1 admin2 g]).length = cfg.buffer := by
          simp
          omega
        refine ⟨?_, ?_, ?_⟩
        · simp only [List.length_cons]
          rw [chunkSizes_succ, if_pos hfull]
          simp only [bulkSizes, bulkEvents_cons_bulk,
            bulkEvents_cons_afterRecord, List.map_cons, hcmds]
          exact congrArg _ (by simpa [bulkSizes] using ihsz)
        · simp only [bulkEvents_cons_bulk, bulkEvents_cons_afterRecord,
            List.flatten_cons]
          rw [ihjoin]
          simp
        · simpa using ihout
      · have hflush : ¬(r + 1) % cfg.buffer = 0 := by
          rw [hmod, if_neg hfull]
          omega
        rw [if_neg hflush]
        obtain ⟨ihsz, ihjoin, ihout⟩ :=
          ih (r + 1) (cs ++ [opOf admin1 admin2 g]) q
            (by rw [hmod, if_neg hfull]; simp)
        refine ⟨?_, ?_, ?_⟩
        · simp only [List.length_cons]
          rw [chunkSizes_succ, if_neg hfull]
          simpa [bulkSizes] using ihsz
        · simp only [bulkEvents_cons_afterRecord]
          rw [ihjoin]
          simp
        · simpa using ihout

/-- Buffer-bound invariant, for arbitrary rows and oracle answers: every
post-record buffer level stays strictly below the capacity (the buffer is
cleared exactly when it reaches it), and every bulk request carries at most
capacity-many operations. -/
theorem seedLoop_bound (cfg : SeedConfig) (admin1 admin2 : AdminMap)
    (hN : 1 ≤ cfg.buffer) :
    ∀ (rows : List (Except String Location)) (r : Nat) (cs : List PendingOp)
      (q : Nat),
      cs.length = r % cfg.buffer →
      (∀ b, Event.afterRecord b ∈ (seedLoop cfg admin1 admin2 rows r cs q).1 →
          b < cfg.buffer) ∧
        (∀ ops, Event.bulk ops ∈ (seedLoop cfg admin1 admin2 rows r cs q).1 →
          ops.length ≤ cfg.buffer) := by
  intro rows
  induction rows with
  | nil =>
      intro r cs q hinv
      have hlt : cs.length < cfg.buffer := hinv ▸ Nat.mod_lt _ hN
      cases cs with
      | nil => simp [seedLoop]
      | cons c cs' =>
          refine ⟨fun b hmem => ?_, fun ops hmem => ?_⟩
          · by_cases hb : (cfg.bulkResp q).1 = true <;>
              simp [seedLoop, hb] at hmem
          · have hops : ops = c :: cs' := by
              by_cases hb : (cfg.bulkResp q).1 = true <;>
                simp [seedLoop, hb] at hmem <;> exact hmem
            exact hops ▸ Nat.le_of_lt hlt
  | cons row rest ih =>
      intro r cs q hinv
      have hlt : cs.length < cfg.buffer := hinv ▸ Nat.mod_lt _ hN
      cases row with
      | error e => simp [seedLoop]
      | ok record =>
          rw [seedLoop, if_neg (by omega : ¬cfg.buffer = 0)]
          have hmod := succ_mod_eq cfg.buffer r hN
          rw [← hinv] at hmod
          by_cases hfull : cs.length + 1 = cfg.buffer
          · have hflush : (r + 1) % cfg.buffer = 0 := by
              rw [hmod, if_pos hfull]
            rw [if_pos hflush]
            by_cases hb : (cfg.bulkResp q).1 = true
            · rw [if_pos hb]
              refine ⟨fun b hmem => ?_, fun ops hmem => ?_⟩
              · simp at hmem
              · simp at hmem
                subst hmem
                simp
                omega
            · rw [if_neg hb]
              obtain ⟨iha, ihb⟩ := ih (r + 1) [] (q + 1) (by simp [hflush])
              refine ⟨fun b hmem => ?_, fun ops hmem => ?_⟩
              · simp only [List.mem_cons] at hmem
                rcases hmem with h | h | h
                · exact absurd h (by simp)
                · cases h
                  omega
                · exact iha b h
              · simp only [List.mem_cons] at hmem
                rcases hmem with h | h | h
                · cases h
                  simp
                  omega
                · exact absurd h (by simp)
                · exact ihb ops h
          · have hflush : ¬(r + 1) % cfg.buffer = 0 := by
              rw [hmod, if_neg hfull]
              omega
            rw [if_neg hflush]
            have hlt2 : cs.length + 1 < cfg.buffer := by
              have h2 := Nat.mod_lt (r + 1) hN
              rw [hmod, if_neg hfull] at h2
              exact h2
            obtain ⟨iha, ihb⟩ :=
              ih (r + 1) (cs ++ [opOf admin1 admin2 record]) q
                (by rw [hmod, if_neg hfull]; simp)
            refine ⟨fun b hmem => ?_, fun ops hmem => ?_⟩
            · simp only [List.mem_cons] at hmem
              rcases hmem with h | h
              · cases h
                simp
                omega
              · exact iha b h
            · simp only [List.mem_cons] at hmem
              rcases hmem with h | h
              · exact absurd h (by simp)
              · exact ihb ops h

/-- First bulk error on a full, mid-stream batch: if the first failing
response index `E` is reached while flushing a full buffer, the loop's trace
ends with the diagnostic write of that response's raw body, exactly
`E - q + 1` bulk requests were issued, and the loop panics. -/
theorem seedLoop_first_error_mid (cfg : SeedConfig) (admin1 admin2 : AdminMap)
    (hN : 1 ≤ cfg.buffer) (E : Nat) (hE : (cfg.bulkResp E).1 = true) :
    ∀ (goods : List Location) (r : Nat) (cs : List PendingOp) (q : Nat),
      cs.length = r % cfg.buffer →
      q ≤ E →
      (∀ j, q ≤ j → j < E → (cfg.bulkResp j).1 = false) →
      E - q < (cs.length + goods.length) / cfg.buffer →
      (∃ pre, (seedLoop cfg admin1 admin2 (goods.map Except.ok) r cs q).1 =
          pre ++ [Event.writeDiag (cfg.bulkResp E).2]) ∧
        (bulkEvents
            (seedLoop cfg admin1 admin2 (goods.map Except.ok) r cs q).1).length =
          E - q + 1 ∧
        (seedLoop cfg admin1 admin2 (goods.map Except.ok) r cs q).2 =
          Outcome.panic bulkPanicMsg := by
  intro goods
  induction goods with
  | nil =>
      intro r cs q hinv _hqE _hprev hdiv
      have hlt : cs.length < cfg.buffer := hinv ▸ Nat.mod_lt _ hN
      rw [List.length_nil, Nat.add_zero, Nat.div_eq_of_lt hlt] at hdiv
      omega
  | cons g gs ih =>
      intro r cs q hinv hqE hprev hdiv
      have hlt : cs.length < cfg.buffer := hinv ▸ Nat.mod_lt _ hN
      rw [List.map_cons, seedLoop]
      rw [if_neg (by omega : ¬cfg.buffer = 0)]
      have hmod := succ_mod_eq cfg.buffer r hN
      rw [← hinv] at hmod
      by_cases hfull : cs.length + 1 = cfg.buffer
      · have hflush : (r + 1) % cfg.buffer = 0 := by
          rw [hmod, if_pos hfull]
        rw [if_pos hflush]
        rcases Nat.eq_or_lt_of_le hqE with rfl | hqlt
        · rw [if_pos hE]
          refine ⟨⟨[Event.bulk (cs ++ [opOf admin1 admin2 g])], rfl⟩, ?_, rfl⟩
          simp
        · rw [if_neg (by simp [hprev q (Nat.le_refl q) hqlt])]
          have hdiv2 : E - (q + 1) < (0 + gs.length) / cfg.buffer := by
            have hsum : cs.length + (gs.length + 1) = gs.length + cfg.buffer := by
              omega
            rw [List.length_cons, hsum, Nat.add_div_right gs.length hN] at hdiv
            rw [Nat.zero_add]
            omega
          obtain ⟨⟨pre, hpre⟩, ihcnt, ihout⟩ :=
            ih (r + 1) [] (q + 1) (by simp [hflush]) hqlt
              (fun j hj1 hj2 => hprev j (by omega) hj2) hdiv2
          refine ⟨⟨Event.bulk (cs ++ [opOf admin1 admin2 g]) ::
            Event.afterRecord 0 :: pre, by simp [hpre]⟩, ?_, by simpa using ihout⟩
          simp only [bulkEvents_cons_bulk, bulkEvents_cons_afterRecord,
            List.length_cons]
          rw [ihcnt]
          omega
      · have hflush : ¬(r + 1) % cfg.buffer = 0 := by
          rw [hmod, if_neg hfull]
          omega
        rw [if_neg hflush]
        have hdiv2 :
            E - q < ((cs ++ [opOf admin1 admin2 g]).length + gs.length) /
              cfg.buffer := by
          have hsum : (cs ++ [opOf admin1 admin2 g]).length + gs.length =
              cs.length + (g :: gs).length := by
            simp
            omega
          rw [hsum]
          exact hdiv
        obtain ⟨⟨pre, hpre⟩, ihcnt, ihout⟩ :=
          ih (r + 1) (cs ++ [opOf admin1 admin2 g]) q
            (by rw [hmod, if_neg hfull]; simp) hqE hprev hdiv2
        refine ⟨⟨Event.afterRecord (cs ++ [opOf admin1 admin2 g]).length ::
          pre, by simp [hpre]⟩, ?_, by simpa using ihout⟩
        simpa using ihcnt

/-- First bulk error on the partial batch flushed at end-of-stream: the loop
panics, but no diagnostic write appears anywhere in its trace. -/
theorem seedLoop_first_error_tail (cfg : SeedConfig)
    (admin1 admin2 : AdminMap) (hN : 1 ≤ cfg.buffer) (E : Nat)
    (hE : (cfg.bulkResp E).1 = true) :
    ∀ (goods : List Location) (r : Nat) (cs : List PendingOp) (q : Nat),
      cs.length = r % cfg.buffer →
      q ≤ E →
      (∀ j, q ≤ j → j < E → (cfg.bulkResp j).1 = false) →
      E - q = (cs.length + goods.length) / cfg.buffer →
      (cs.length + goods.length) % cfg.buffer ≠ 0 →
      hasDiag (seedLoop cfg admin1 admin2 (goods.map Except.ok) r cs q).1 =
          false ∧
        (bulkEvents
            (seedLoop cfg admin1 admin2 (goods.map Except.ok) r cs q).1).length =
          E - q + 1 ∧
        (seedLoop cfg admin1 admin2 (goods.map Except.ok) r cs q).2 =
          Outcome.panic bulkPanicMsg := by
  intro goods
  induction goods with
  | nil =>
      intro r cs q hinv hqE _hprev hdiv hrem
      have hlt : cs.length < cfg.buffer := hinv ▸ Nat.mod_lt _ hN
      rw [List.length_nil, Nat.add_zero, Nat.div_eq_of_lt hlt] at hdiv
      rw [List.length_nil, Nat.add_zero, Nat.mod_eq_of_lt hlt] at hrem
      have hqe : q = E := by omega
      cases cs with
      | nil => simp at hrem
      | cons c cs' =>
          rw [List.map_nil, seedLoop]
          rw [if_neg (by simp : ¬((c :: cs').isEmpty = true)),
            if_pos (by rw [hqe]; exact hE)]
          refine ⟨rfl, by simp; omega, rfl⟩
  | cons g gs ih =>
      intro r cs q hinv hqE hprev hdiv hrem
      have hlt : cs.length < cfg.buffer := hinv ▸ Nat.mod_lt _ hN
      rw [List.map_cons, seedLoop]
      rw [if_neg (by omega : ¬cfg.buffer = 0)]
      have hmod := succ_mod_eq cfg.buffer r hN
      rw [← hinv] at hmod
      by_cases hfull : cs.length + 1 = cfg.buffer
      · have hflush : (r + 1) % cfg.buffer = 0 := by
          rw [hmod, if_pos hfull]
        rw [if_pos hflush]
        have hsum : cs.length + (g :: gs).length = gs.length + cfg.buffer := by
          simp
          omega
        rw [hsum, Nat.add_div_right gs.length hN] at hdiv
        rw [hsum, Nat.add_mod_right gs.length cfg.buffer] at hrem
        have hge : 1 ≤ E - q := by
          rw [hdiv]
          exact Nat.le_add_left 1 _
        have hqlt : q < E := by omega
        rw [if_neg (by simp [hprev q (Nat.le_refl q) hqlt])]
        obtain ⟨ihd, ihcnt, ihout⟩ :=
          ih (r + 1) [] (q + 1) (by simp [hflush]) hqlt
            (fun j hj1 hj2 => hprev j (by omega) hj2)
            (by simp only [List.length_nil, Nat.zero_add]; omega)
            (by simpa using hrem)
        refine ⟨by simpa using ihd, ?_, by simpa using ihout⟩
        simp only [bulkEvents_cons_bulk, bulkEvents_cons_afterRecord,
          List.length_cons]
        rw [ihcnt]
        omega
      · have hflush : ¬(r + 1) % cfg.buffer = 0 := by
          rw [hmod, if_neg hfull]
          omega
        rw [if_neg hflush]
        have hsum : (cs ++ [opOf admin1 admin2 g]).length + gs.length =
            cs.length + (g :: gs).length := by
          simp
          omega
        obtain ⟨ihd, ihcnt, ihout⟩ :=
          ih (r + 1) (cs ++ [opOf admin1 admin2 g]) q
            (by rw [hmod, if_neg hfull]; simp) hqE hprev
            (by rw [hsum]; exact hdiv) (by rw [hsum]; exact hrem)
        exact ⟨by simpa using ihd, by simpa using ihcnt, by simpa using ihout⟩

/-- A bulk event's operations appear among the trace's bulk requests. -/
theorem mem_bulkEvents_of_mem (evs : List Event) (ops : List PendingOp)
    (h : Event.bulk ops ∈ evs) : ops ∈ bulkEvents evs :=
  List.mem_filterMap.mpr ⟨Event.bulk ops, h, rfl⟩

/-- Hitting a row the csv decoder rejects stops the loop at once: the result
is the same whatever rows follow the bad one, and the outcome is the
propagated decode error. -/
theorem seedLoop_stops_at_error (cfg : SeedConfig) (admin1 admin2 : AdminMap)
    (hN : 1 ≤ cfg.buffer) (hresp : ∀ i, (cfg.bulkResp i).1 = false)
    (e : String) :
    ∀ (goods : List Location) (r : Nat) (cs : List PendingOp) (q : Nat),
      ∃ evs, ∀ (post : List (Except String Location)),
        seedLoop cfg admin1 admin2
            (goods.map Except.ok ++ Except.error e :: post) r cs q =
          (evs, Outcome.err e) := by
  intro goods
  induction goods with
  | nil =>
      intro r cs q
      exact ⟨[], fun post => by simp [seedLoop]⟩
  | cons g gs ih =>
      intro r cs q
      by_cases h0 : cfg.buffer = 0
      · omega
      · by_cases hflush : (r + 1) % cfg.buffer = 0
        · obtain ⟨evs, hevs⟩ := ih (r + 1) [] (q + 1)
          refine ⟨Event.bulk (cs ++ [opOf admin1 admin2 g]) ::
            Event.afterRecord 0 :: evs, fun post => ?_⟩
          rw [List.map_cons, List.cons_append, seedLoop, if_neg h0,
            if_pos hflush, if_neg (by simp [hresp q]), hevs post]
        · obtain ⟨evs, hevs⟩ := ih (r + 1) (cs ++ [opOf admin1 admin2 g]) q
          refine ⟨Event.afterRecord (cs ++ [opOf admin1 admin2 g]).length ::
            evs, fun post => ?_⟩
          rw [List.map_cons, List.cons_append, seedLoop, if_neg h0,
            if_neg hflush, hevs post]

/-- C2 (amended): on an error-free input stream whose first failing bulk
response has index `E`, (a) if that response answers a full mid-stream batch
(`E < k / N`), the raw response body is written to the diagnostic file as the
run's very last event, the run panics, and no further bulk request is issued
(exactly `E + 1` were issued in total); (b) but if it answers the partial
batch flushed at end-of-stream (`E = k / N` with a non-zero remainder), the
run panics with no retry and no further bulk request, and the diagnostic file
is NOT written — unlike what the claim states for that flush. -/
theorem c2_bulk_error_abort (cfg : SeedConfig)
    (rows : List (Except String Location)) (goods : List Location)
    (admin1 admin2 : AdminMap) (E : Nat)
    (hrows : rows = goods.map Except.ok)
    (hN : 1 ≤ cfg.buffer)
    (hboot : bootstrapProceeds cfg = true)
    (hprev : ∀ j, j < E → (cfg.bulkResp j).1 = false)
    (hE : (cfg.bulkResp E).1 = true) :
    (E < goods.length / cfg.buffer →
      (seedRun cfg rows admin1 admin2).2 = Outcome.panic bulkPanicMsg ∧
        (seedRun cfg rows admin1 admin2).1.getLast? =
          some (Event.writeDiag (cfg.bulkResp E).2) ∧
        (bulkEvents (seedRun cfg rows admin1 admin2).1).length = E + 1) ∧
    (E = goods.length / cfg.buffer → goods.length % cfg.buffer ≠ 0 →
      (seedRun cfg rows admin1 admin2).2 = Outcome.panic bulkPanicMsg ∧
        hasDiag (seedRun cfg rows admin1 admin2).1 = false ∧
        (bulkEvents (seedRun cfg rows admin1 admin2).1).length = E + 1) := by
  subst hrows
  rw [seedRun_eq_of_proceeds cfg (goods.map Except.ok) admin1 admin2 hboot]
  obtain ⟨hbbulk, hbdiag, _⟩ := seedBootstrap_events cfg
  constructor
  · intro hlt
    obtain ⟨⟨pre, hpre⟩, hcnt, hout⟩ :=
      seedLoop_first_error_mid cfg admin1 admin2 hN E hE goods 0 [] 0
        (by simp) (Nat.zero_le E) (fun j _ hj => hprev j hj)
        (by simpa using hlt)
    refine ⟨by simpa using hout, ?_, ?_⟩
    · rw [hpre, ← List.append_assoc, List.getLast?_concat]
    · simp [hbbulk, hcnt]
  · intro hEq hrem
    obtain ⟨hdia, hcnt, hout⟩ :=
      seedLoop_first_error_tail cfg admin1 admin2 hN E hE goods 0 [] 0
        (by simp) (Nat.zero_le E) (fun j _ hj => hprev j hj)
        (by simpa using hEq) (by simpa using hrem)
    refine ⟨by simpa using hout, ?_, ?_⟩
    · simp [hbdiag, hdia]
    · simp [hbbulk, hcnt]

/-- Counterexample to C2 as stated: with capacity 2, five error-free records
and the third bulk response (the end-of-stream partial batch) reporting an
operation error, the run aborts with the bulk panic but no diagnostic write
appears anywhere in its trace. -/
theorem c2_counterexample :
    (seedRun cfgTailErrW rowsW [] []).2 = Outcome.panic bulkPanicMsg ∧
      hasDiag (seedRun cfgTailErrW rowsW [] []).1 = false := by
  constructor <;> decide

/-- Witness for C2's amended theorem: capacity 2, five records, second bulk
response failing — the diagnostic write of its raw body ends the trace, the
run panics, and only 2 bulk requests were issued. -/
theorem c2_bulk_error_abort_witness :
    (seedRun cfgMidErrW rowsW [] []).2 = Outcome.panic bulkPanicMsg ∧
      (seedRun cfgMidErrW rowsW [] []).1.getLast? =
        some (Event.writeDiag "RAWBODY") ∧
      (bulkEvents (seedRun cfgMidErrW rowsW [] []).1).length = 2 := by
  have h :=
    (c2_bulk_error_abort cfgMidErrW rowsW goodsW [] [] 1 rfl (by decide) rfl
        (by
          intro j hj
          have hj0 : j = 0 := by omega
          subst hj0
          rfl)
        rfl).1
      (by decide)
  exact h

/-- C3: error-free ingestion of `k` records with capacity `N ≥ 1` issues the
bulk requests in file order, the first `k / N` of size exactly `N` and a final
partial one of size `k % N` when the remainder is non-zero (so `⌈k / N⌉`
requests in total), their operations concatenating to the enqueued documents
in file order, and the run succeeds. -/
theorem c3_batch_partition (cfg : SeedConfig)
    (rows : List (Except String Location)) (goods : List Location)
    (admin1 admin2 : AdminMap)
    (hrows : rows = goods.map Except.ok)
    (hN : 1 ≤ cfg.buffer)
    (hboot : bootstrapProceeds cfg = true)
    (hresp : ∀ i, (cfg.bulkResp i).1 = false) :
    bulkSizes (seedRun cfg rows admin1 admin2).1 =
        List.replicate (goods.length / cfg.buffer) cfg.buffer ++
          (if goods.length % cfg.buffer = 0 then []
            else [goods.length % cfg.buffer]) ∧
      (bulkEvents (seedRun cfg rows admin1 admin2).1).flatten =
        goods.map (opOf admin1 admin2) ∧
      (seedRun cfg rows admin1 admin2).2 = Outcome.ok := by
  subst hrows
  rw [seedRun_eq_of_proceeds cfg (goods.map Except.ok) admin1 admin2 hboot]
  obtain ⟨hbbulk, _, _⟩ := seedBootstrap_events cfg
  obtain ⟨hsz, hjoin, hout⟩ :=
    seedLoop_noerr cfg admin1 admin2 hN hresp goods 0 [] 0 (by simp)
  simp only [List.length_nil] at hsz
  rw [chunkSizes_eq cfg.buffer hN goods.length 0 (by omega),
    Nat.zero_add] at hsz
  refine ⟨?_, ?_, by simpa using hout⟩
  · simpa [bulkSizes, hbbulk] using hsz
  · simpa [hbbulk] using hjoin

/-- Witness for C3: the spec's concrete scenario — capacity 2, five records,
no errors — yields exactly three bulk requests of sizes 2, 2, 1 and a clean
outcome. -/
theorem c3_batch_partition_witness :
    bulkSizes (seedRun cfgAllOkW rowsW [] []).1 = [2, 2, 1] ∧
      (seedRun cfgAllOkW rowsW [] []).2 = Outcome.ok := by
  have h := c3_batch_partition cfgAllOkW rowsW goodsW [] [] rfl (by decide)
    rfl (fun i => rfl)
  refine ⟨?_, h.2.2⟩
  rw [h.1]
  decide

/-- C7: when the exists check reports the index absent and creation and
mapping-apply succeed, the run performs exactly one create and exactly one
mapping-apply, and both precede every bulk request; when the index is already
present, neither call occurs. -/
theorem c7_bootstrap_order (cfg : SeedConfig)
    (rows : List (Except String Location)) (admin1 admin2 : AdminMap) :
    (cfg.indexExists = false → cfg.createSucceeds = true →
      cfg.mappingOk = true →
      (seedRun cfg rows admin1 admin2).1.count Event.createIndex = 1 ∧
        (seedRun cfg rows admin1 admin2).1.count Event.putMapping = 1 ∧
        ∀ pre ops post,
          (seedRun cfg rows admin1 admin2).1 =
              pre ++ Event.bulk ops :: post →
            Event.createIndex ∈ pre ∧ Event.putMapping ∈ pre) ∧
    (cfg.indexExists = true →
      (seedRun cfg rows admin1 admin2).1.count Event.createIndex = 0 ∧
        (seedRun cfg rows admin1 admin2).1.count Event.putMapping = 0) := by
  constructor
  · intro h1 h2 h3
    have hboot : bootstrapProceeds cfg = true := by
      simp [bootstrapProceeds, h2, h3]
    rw [seedRun_eq_of_proceeds cfg rows admin1 admin2 hboot]
    have hbevs : (seedBootstrap cfg).1 =
        [Event.createIndex, Event.putMapping] := by
      simp [seedBootstrap, h1, h2, h3]
    rw [hbevs]
    obtain ⟨hnc, hnm⟩ :=
      seedLoop_no_bootstrap_events cfg admin1 admin2 rows 0 [] 0
    refine ⟨?_, ?_, ?_⟩
    · rw [List.count_append, List.count_eq_zero.mpr hnc]
      decide
    · rw [List.count_append, List.count_eq_zero.mpr hnm]
      decide
    · intro pre ops post heq
      cases pre with
      | nil => simp at heq
      | cons x pre1 =>
          cases pre1 with
          | nil => simp at heq
          | cons y pre2 =>
              simp only [List.cons_append, List.nil_append,
                List.cons.injEq] at heq
              obtain ⟨hx, hy, -⟩ := heq
              subst hx
              subst hy
              exact ⟨by simp, by simp⟩
  · intro h1
    have hboot : bootstrapProceeds cfg = true := by
      simp [bootstrapProceeds, h1]
    rw [seedRun_eq_of_proceeds cfg rows admin1 admin2 hboot]
    have hbevs : (seedBootstrap cfg).1 = [] := by
      simp [seedBootstrap, h1]
    rw [hbevs]
    obtain ⟨hnc, hnm⟩ :=
      seedLoop_no_bootstrap_events cfg admin1 admin2 rows 0 [] 0
    rw [List.nil_append]
    exact ⟨List.count_eq_zero.mpr hnc, List.count_eq_zero.mpr hnm⟩

/-- Witness for C7: with the index absent and a clean bootstrap, the run over
the five-record stream performs exactly one create and one mapping-apply;
with the index present, it performs none. -/
theorem c7_bootstrap_order_witness :
    ((seedRun cfgAbsentW rowsW [] []).1.count Event.createIndex = 1 ∧
      (seedRun cfgAbsentW rowsW [] []).1.count Event.putMapping = 1) ∧
      ((seedRun cfgAllOkW rowsW [] []).1.count Event.createIndex = 0 ∧
        (seedRun cfgAllOkW rowsW [] []).1.count Event.putMapping = 0) := by
  have habs := (c7_bootstrap_order cfgAbsentW rowsW [] []).1 rfl rfl rfl
  have hpres := (c7_bootstrap_order cfgAllOkW rowsW [] []).2 rfl
  exact ⟨⟨habs.1, habs.2.1⟩, hpres⟩

/-- C8: a row the decoder rejects aborts the whole run with the propagated
decode error, and nothing after the bad row matters: the run is identical for
every continuation of the stream past it (no later row is decoded, nothing
further is enqueued or uploaded, no skip-and-continue). -/
theorem c8_parse_error_aborts (cfg : SeedConfig)
    (rows : List (Except String Location)) (admin1 admin2 : AdminMap)
    (goods : List Location) (e : String)
    (post : List (Except String Location))
    (hrows : rows = goods.map Except.ok ++ Except.error e :: post)
    (hN : 1 ≤ cfg.buffer)
    (hboot : bootstrapProceeds cfg = true)
    (hresp : ∀ i, (cfg.bulkResp i).1 = false) :
    (seedRun cfg rows admin1 admin2).2 = Outcome.err e ∧
      ∀ post', seedRun cfg rows admin1 admin2 =
        seedRun cfg (goods.map Except.ok ++ Except.error e :: post')
          admin1 admin2 := by
  subst hrows
  obtain ⟨evs, hevs⟩ :=
    seedLoop_stops_at_error cfg admin1 admin2 hN hresp e goods 0 [] 0
  constructor
  · rw [seedRun_eq_of_proceeds cfg _ admin1 admin2 hboot, hevs post]
  · intro post'
    rw [seedRun_eq_of_proceeds cfg _ admin1 admin2 hboot,
      seedRun_eq_of_proceeds cfg _ admin1 admin2 hboot, hevs post,
      hevs post']

/-- Witness for C8: a stream whose second row fails to decode ends the run
with that decode error, and the rows after it are irrelevant. -/
theorem c8_parse_error_aborts_witness :
    (seedRun cfgAllOkW
        [Except.ok (sampleLoc 1 (some 100) "CA" 1 2),
         Except.error "bad gazetteer row",
         Except.ok (sampleLoc 2 (some 100) "CA" 1 2)] [] []).2 =
      Outcome.err "bad gazetteer row" :=
  (c8_parse_error_aborts cfgAllOkW _ [] []
      [sampleLoc 1 (some 100) "CA" 1 2] "bad gazetteer row"
      [Except.ok (sampleLoc 2 (some 100) "CA" 1 2)] rfl (by decide) rfl
      (fun i => rfl)).1

/-- C9: with capacity `N ≥ 1`, whatever the rows and oracle answers, after
each record's loop iteration the batch buffer holds strictly fewer than `N`
pending operations (it is flushed and cleared exactly on reaching `N`), and
no bulk request ever carries more than `N` operations: the buffer never
exceeds its capacity. -/
theorem c9_buffer_capacity (cfg : SeedConfig)
    (rows : List (Except String Location)) (admin1 admin2 : AdminMap)
    (hN : 1 ≤ cfg.buffer) :
    (∀ b, Event.afterRecord b ∈ (seedRun cfg rows admin1 admin2).1 →
        b < cfg.buffer) ∧
      (∀ ops, Event.bulk ops ∈ (seedRun cfg rows admin1 admin2).1 →
        ops.length ≤ cfg.buffer) := by
  obtain ⟨hbbulk, _, hbrec⟩ := seedBootstrap_events cfg
  have hbulkboot : ∀ ops, Event.bulk ops ∉ (seedBootstrap cfg).1 := by
    intro ops hmem
    have := mem_bulkEvents_of_mem _ _ hmem
    rw [hbbulk] at this
    simp at this
  obtain ⟨hla, hlb⟩ :=
    seedLoop_bound cfg admin1 admin2 hN rows 0 [] 0 (by simp)
  rw [seedRun]
  rcases hsb : seedBootstrap cfg with ⟨evs, o⟩
  rw [hsb] at hbrec hbulkboot
  cases o with
  | some out =>
      exact ⟨fun b hmem => absurd hmem (hbrec b),
        fun ops hmem => absurd hmem (hbulkboot ops)⟩
  | none =>
      constructor
      · intro b hmem
        simp only [List.mem_append] at hmem
        rcases hmem with h | h
        · exact absurd h (hbrec b)
        · exact hla b h
      · intro ops hmem
        simp only [List.mem_append] at hmem
        rcases hmem with h | h
        · exact absurd h (hbulkboot ops)
        · exact hlb ops h

/-- Witness for C9 at the five-record capacity-2 run: the buffer level
recorded after the first record (a concrete `afterRecord 1` event of the
trace) is below the capacity. -/
theorem c9_buffer_capacity_witness : (1 : Nat) < cfgAllOkW.buffer :=
  (c9_buffer_capacity cfgAllOkW rowsW [] [] (by decide)).1 1 (by decide)

/-- C10: with the operator-configured capacity 0 and a stream whose first row
decodes to a record, processing that first record panics with the Rust
remainder-by-zero message — the guarded zero-divisor branch of the embedded
loop — instead of returning an error, and no bulk request is ever issued. -/
theorem c10_zero_capacity_panics (cfg : SeedConfig)
    (rows : List (Except String Location)) (admin1 admin2 : AdminMap)
    (rec0 : Location) (rest : List (Except String Location))
    (hrows : rows = Except.ok rec0 :: rest)
    (h0 : cfg.buffer = 0)
    (hboot : bootstrapProceeds cfg = true) :
    (seedRun cfg rows admin1 admin2).2 = Outcome.panic remainderPanicMsg ∧
      bulkEvents (seedRun cfg rows admin1 admin2).1 = [] := by
  subst hrows
  rw [seedRun_eq_of_proceeds cfg _ admin1 admin2 hboot, seedLoop, if_pos h0]
  obtain ⟨hbbulk, _, _⟩ := seedBootstrap_events cfg
  exact ⟨rfl, by simp [hbbulk]⟩

/-- Witness for C10: capacity 0 on the five-record stream panics with the
remainder-by-zero message and issues no bulk request. -/
theorem c10_zero_capacity_panics_witness :
    (seedRun cfgZeroW rowsW [] []).2 = Outcome.panic remainderPanicMsg ∧
      bulkEvents (seedRun cfgZeroW rowsW [] []).1 = [] :=
  c10_zero_capacity_panics cfgZeroW rowsW [] [] _ _ rfl rfl rfl

end AdminCli
